import Mathlib

set_option maxRecDepth 10000

namespace ExcelAgent

/-! # Data model

A shallow embedding of the tabular query engine of the repository:
`ColumnMapper` (column-name normalization and resolution) and the table
operations `filterData`, `aggregateData`, `sortData`, `createPivotTable`
(`ExcelTools`) and `validateData` (`EnhancedExcelAgent`). -/

deriving instance DecidableEq for Except

/-- A spreadsheet cell as the tools receive it: JS `string | number | null | undefined`.
Numbers are modelled as rationals; the verified properties do not depend on float
rounding, and cells produced by the repository are finite. -/
inductive Cell where
  | num (q : ℚ)
  | str (s : String)
  | null
  | undef
deriving DecidableEq

/-- A data row (`any[]` in the source). -/
abbrev Row := List Cell

/-- JS `row[i]`: out-of-range access yields `undefined`. -/
def rowGet (row : Row) (i : Nat) : Cell := row.getD i Cell.undef

/-! ## JS string primitives, on character lists so that they evaluate in the kernel -/

/-- Character-list version of `startsWith`. -/
def charsStartWith : List Char → List Char → Bool
  | _, [] => true
  | [], _ :: _ => false
  | c :: cs, p :: ps => c == p && charsStartWith cs ps

/-- JS `String.prototype.includes` on character lists. -/
def charsContain : List Char → List Char → Bool
  | [], pat => charsStartWith [] pat
  | c :: cs, pat => charsStartWith (c :: cs) pat || charsContain cs pat

/-- JS `s.includes(pat)`. -/
def strContains (s pat : String) : Bool := charsContain s.data pat.data

/-- JS `toLowerCase` (ASCII; the repository's headers and terms are ASCII). -/
def lowerStr (s : String) : String := ⟨s.data.map Char.toLower⟩

/-- JS `trim` on character lists. -/
def trimChars (cs : List Char) : List Char :=
  ((cs.dropWhile Char.isWhitespace).reverse.dropWhile Char.isWhitespace).reverse

/-- Split into maximal whitespace-free words (accumulator holds the current word
reversed). -/
def wordsAux : List Char → List Char → List (List Char)
  | [], cur => if cur.isEmpty then [] else [cur.reverse]
  | c :: cs, cur =>
    if c.isWhitespace then
      if cur.isEmpty then wordsAux cs [] else cur.reverse :: wordsAux cs []
    else wordsAux cs (c :: cur)

/-- Join words with a single separator character. -/
def joinChars (sep : Char) : List (List Char) → List Char
  | [] => []
  | [w] => w
  | w :: ws => w ++ sep :: joinChars sep ws

/-- JS `.replace(/\s+/g, sep)` on an already-trimmed string (on the cleaned strings the
source applies it to, every whitespace run turns into one `sep`). -/
def collapseWs (sep : Char) (s : String) : String := ⟨joinChars sep (wordsAux s.data [])⟩

/-! ## JS numeric coercion -/

/-- Decimal digit-list value. -/
def digitsVal (cs : List Char) : Nat :=
  cs.foldl (fun n c => n * 10 + (c.toNat - '0'.toNat)) 0

/-- Unsigned decimal literal: `digits`, `digits.digits`, `digits.` or `.digits`. -/
def parseDec (cs : List Char) : Option ℚ :=
  let intPart := cs.takeWhile Char.isDigit
  let rest := cs.dropWhile Char.isDigit
  match rest with
  | [] => if intPart.isEmpty then none else some (digitsVal intPart)
  | '.' :: frac =>
    if frac.all Char.isDigit && !(intPart.isEmpty && frac.isEmpty) then
      some ((digitsVal intPart : ℚ) + (digitsVal frac : ℚ) / (10 : ℚ) ^ frac.length)
    else none
  | _ => none

/-- JS `Number(string)` on optionally signed decimal literals, the numeric string forms
the repository's data paths exercise; other strings are NaN (`none`); the empty or
all-whitespace string coerces to `0`. -/
def parseJsNumber (s : String) : Option ℚ :=
  match trimChars s.data with
  | [] => some 0
  | '-' :: rest => (parseDec rest).map (fun q => -q)
  | '+' :: rest => parseDec rest
  | cs => parseDec cs

/-- JS `Number(cell)`: `null` coerces to `0`, `undefined` to NaN; `none` models NaN. -/
def jsToNumber : Cell → Option ℚ
  | .num q => some q
  | .str s => parseJsNumber s
  | .null => some 0
  | .undef => none

/-- JS `String(q)` for the rational model: integers print as in JS; a non-integral value
prints as `num/den` (an injective stand-in for JS float formatting). -/
def ratToString (q : ℚ) : String :=
  if q.den = 1 then toString q.num else toString q.num ++ "/" ++ toString q.den

/-- JS `String(cell)`. -/
def jsToString : Cell → String
  | .num q => ratToString q
  | .str s => s
  | .null => "null"
  | .undef => "undefined"

/-- A JS numeric result: finite, `NaN` (e.g. `0/0`), or `±Infinity` (empty
`Math.min`/`Math.max`). -/
inductive JsNumber where
  | finite (q : ℚ)
  | nan
  | posInf
  | negInf
deriving DecidableEq

/-! # ColumnMapper -/

/-- `ColumnMapper.synonyms`, in insertion order as JS `Object.entries` iterates it. -/
def synonyms : List (String × List String) :=
  [("quantity", ["qty", "amount", "count", "number"]),
   ("price", ["cost", "rate", "value", "amount"]),
   ("revenue", ["sales", "income", "earnings"]),
   ("customer", ["client", "buyer", "user"]),
   ("date", ["time", "timestamp", "created"]),
   ("product", ["item", "goods", "merchandise"]),
   ("region", ["area", "location", "territory"]),
   ("category", ["type", "class", "group"])]

/-- The cleaning phase of `ColumnMapper.normalizeColumnName`: lower-case, trim, replace
characters outside `[\w\s]` by a space, collapse whitespace runs, trim. -/
def cleanName (columnName : String) : String :=
  let lowered := trimChars (lowerStr columnName).data
  let replaced := lowered.map (fun c =>
    if c.isAlphanum || c == '_' || c.isWhitespace then c else ' ')
  collapseWs ' ' ⟨replaced⟩

/-- `ColumnMapper.normalizeColumnName`: clean, then first synonym whose alias occurs as a
substring wins, else snake-case slug of the cleaned name. -/
def normalizeColumnName (columnName : String) : String :=
  if columnName = "" then ""
  else
    let normalized := cleanName columnName
    match synonyms.find? (fun p => p.2.any (fun syn => strContains normalized syn)) with
    | some p => p.1
    | none => collapseWs '_' normalized

/-- Levenshtein distance (`ColumnMapper.levenshteinDistance`), as the standard recurrence
computing the same value as the source's DP matrix. -/
def levChars : List Char → List Char → Nat
  | [], ys => ys.length
  | _ :: xs, [] => xs.length + 1
  | x :: xs, y :: ys =>
    min (min (levChars xs (y :: ys) + 1) (levChars (x :: xs) ys + 1))
      (levChars xs ys + (if x == y then 0 else 1))
termination_by xs ys => xs.length + ys.length
decreasing_by all_goals (simp only [List.length_cons]; omega)

/-- String version of the edit distance. -/
def levenshteinDistance (s1 s2 : String) : Nat := levChars s1.data s2.data

/-- `ColumnMapper.findBestMatch`: exact normalized match, then two-way containment of
normalized forms, then minimal Levenshtein distance (first minimum wins; an empty column
list yields `""` where JS yields `undefined`). -/
def findBestMatch (searchColumn : String) (availableColumns : List String) : String :=
  let normalizedSearch := normalizeColumnName searchColumn
  match availableColumns.find? (fun col => normalizeColumnName col == normalizedSearch) with
  | some exactMatch => exactMatch
  | none =>
    match availableColumns.find? (fun col =>
        strContains (normalizeColumnName col) normalizedSearch ||
        strContains normalizedSearch (normalizeColumnName col)) with
    | some partialMatch => partialMatch
    | none =>
      match availableColumns with
      | [] => ""
      | c :: cs =>
        (cs.foldl
          (fun best col =>
            if levenshteinDistance normalizedSearch (normalizeColumnName col) < best.2 then
              (col, levenshteinDistance normalizedSearch (normalizeColumnName col))
            else best)
          (c, levenshteinDistance normalizedSearch (normalizeColumnName c))).1

/-! # ExcelTools -/

/-- The one-way column lookup predicate of `aggregateData`, `sortData`,
`createPivotTable` and `validateData`: lower-cased header contains the lower-cased
term. -/
def headerHasTerm (column h : String) : Bool :=
  strContains (lowerStr h) (lowerStr column)

/-- The two-way lookup predicate of `filterData`: header contains term, or term contains
header. -/
def headerMatchesTerm (column h : String) : Bool :=
  strContains (lowerStr h) (lowerStr column) || strContains (lowerStr column) (lowerStr h)

/-- Numeric comparison after `Number(...)` coercion of both sides; any NaN side makes the
comparison false. -/
def numPred (f : ℚ → ℚ → Bool) (a b : Cell) : Bool :=
  match jsToNumber a, jsToNumber b with
  | some x, some y => f x y
  | _, _ => false

/-- JS loose equality `==` on the cell value domain. -/
def looseEq : Cell → Cell → Bool
  | .num a, .num b => a == b
  | .str a, .str b => a == b
  | .num a, .str b => parseJsNumber b == some a
  | .str a, .num b => parseJsNumber a == some b
  | .null, .null => true
  | .null, .undef => true
  | .undef, .null => true
  | .undef, .undef => true
  | _, _ => false

/-- The operator dispatch of `ExcelTools.filterData` (unknown operators keep the row). -/
def matchesOp (cellValue : Cell) (operator : String) (value : Cell) : Bool :=
  match operator with
  | ">" => numPred (fun x y => decide (x > y)) cellValue value
  | "<" => numPred (fun x y => decide (x < y)) cellValue value
  | ">=" => numPred (fun x y => decide (x ≥ y)) cellValue value
  | "<=" => numPred (fun x y => decide (x ≤ y)) cellValue value
  | "=" => looseEq cellValue value
  | "!=" => !looseEq cellValue value
  | "contains" =>
    strContains (lowerStr (jsToString cellValue)) (lowerStr (jsToString value))
  | _ => true

structure FilterResult where
  filteredRows : List Row
  totalMatches : Nat
  column : String
  operator : String
  value : Cell
deriving DecidableEq

/-- `ExcelTools.filterData`. -/
def filterData (headers : List String) (rows : List Row) (column operator : String)
    (value : Cell) : Except String FilterResult :=
  match headers.findIdx? (headerMatchesTerm column) with
  | none => Except.error ("Column \"" ++ column ++ "\" not found")
  | some columnIndex =>
    let filteredRows := rows.filter (fun row => matchesOp (rowGet row columnIndex) operator value)
    Except.ok
      { filteredRows := filteredRows.take 100
        totalMatches := filteredRows.length
        column := column, operator := operator, value := value }

/-- `rows.map(Number).filter(v => !isNaN(v))` over one column. -/
def aggVals (rows : List Row) (columnIndex : Nat) : List ℚ :=
  (rows.map (fun row => jsToNumber (rowGet row columnIndex))).filterMap id

/-- The `switch (operation)` reduction of `ExcelTools.aggregateData`. -/
def reduceOp (operation : String) (values : List ℚ) : JsNumber :=
  match operation with
  | "sum" => .finite (values.foldl (· + ·) 0)
  | "avg" =>
    if values.length = 0 then .nan
    else .finite (values.foldl (· + ·) 0 / (values.length : ℚ))
  | "count" => .finite (values.length : ℚ)
  | "min" =>
    match values with
    | [] => .posInf
    | v :: vs => .finite (vs.foldl min v)
  | "max" =>
    match values with
    | [] => .negInf
    | v :: vs => .finite (vs.foldl max v)
  | _ => .finite 0

structure GroupEntry where
  group : String
  result : JsNumber
  count : Nat
deriving DecidableEq

inductive AggOutput where
  | simple (operation column : String) (result : JsNumber) (count : Nat)
  | grouped (operation column groupBy : String) (results : List GroupEntry)
deriving DecidableEq

/-- The JS record update `groups[k] = (groups[k] ?? []).push(v)`, keeping
first-occurrence key order, as `Object.entries` later reads it. -/
def insertVal : List (String × List ℚ) → String → ℚ → List (String × List ℚ)
  | [], k, v => [(k, [v])]
  | (k', vs) :: rest, k, v =>
    if k' = k then (k', vs ++ [v]) :: rest
    else (k', vs) :: insertVal rest k v

/-- The grouping loop shared by grouped `aggregateData` and `createPivotTable`: a row is
inserted under its stringified key only when its target value is numeric. -/
def buildGroups (kv : Row → Option (String × ℚ)) (rows : List Row) :
    List (String × List ℚ) :=
  rows.foldl
    (fun gs row =>
      match kv row with
      | some (k, v) => insertVal gs k v
      | none => gs)
    []

/-- `ExcelTools.aggregateData`; JS treats an empty-string `groupBy` as absent (falsy). -/
def aggregateData (headers : List String) (rows : List Row) (column operation : String)
    (groupBy : Option String) : Except String AggOutput :=
  match headers.findIdx? (headerHasTerm column) with
  | none => Except.error ("Column \"" ++ column ++ "\" not found")
  | some columnIndex =>
    match groupBy with
    | none =>
      let values := aggVals rows columnIndex
      Except.ok (.simple operation column (reduceOp operation values) values.length)
    | some g =>
      if g = "" then
        let values := aggVals rows columnIndex
        Except.ok (.simple operation column (reduceOp operation values) values.length)
      else
        match headers.findIdx? (headerHasTerm g) with
        | none => Except.error ("Group by column \"" ++ g ++ "\" not found")
        | some groupByIndex =>
          let groups := buildGroups
            (fun row => (jsToNumber (rowGet row columnIndex)).map
              (fun v => (jsToString (rowGet row groupByIndex), v))) rows
          Except.ok (.grouped operation column g
            (groups.map (fun e => ⟨e.1, reduceOp operation e.2, e.2.length⟩)))

inductive SortOrder where
  | asc
  | desc
deriving DecidableEq

/-- Three-way comparison on rationals. -/
def cmpQ (x y : ℚ) : Ordering :=
  if x < y then .lt else if x = y then .eq else .gt

/-- Lexicographic character-list comparison. -/
def cmpChars : List Char → List Char → Ordering
  | [], [] => .eq
  | [], _ :: _ => .lt
  | _ :: _, [] => .gt
  | a :: as, b :: bs =>
    if a < b then .lt else if b < a then .gt else cmpChars as bs

/-- Lexicographic string comparison, standing in for `localeCompare` on ASCII data. -/
def cmpStr (a b : String) : Ordering := cmpChars a.data b.data

/-- The comparator of `ExcelTools.sortData`: numeric when both cells coerce, otherwise
case-insensitive string comparison; `desc` swaps the operands. -/
def rowCompare (columnIndex : Nat) (order : SortOrder) (a b : Row) : Ordering :=
  match jsToNumber (rowGet a columnIndex), jsToNumber (rowGet b columnIndex) with
  | some aNum, some bNum =>
    match order with
    | .asc => cmpQ aNum bNum
    | .desc => cmpQ bNum aNum
  | _, _ =>
    let aStr := lowerStr (jsToString (rowGet a columnIndex))
    let bStr := lowerStr (jsToString (rowGet b columnIndex))
    match order with
    | .asc => cmpStr aStr bStr
    | .desc => cmpStr bStr aStr

/-- Insert `a` after every element that compares strictly before it. -/
def sortInsert (cmp : α → α → Ordering) (a : α) : List α → List α
  | [] => [a]
  | b :: bs => if cmp b a = Ordering.lt then b :: sortInsert cmp a bs else a :: b :: bs

/-- Stable comparison sort modelling JS `Array.prototype.sort` (stable per ES2019; for a
consistent comparator every stable sort computes the same list, and for an inconsistent
one ECMAScript leaves the order implementation-defined). -/
def stableSortBy (cmp : α → α → Ordering) : List α → List α
  | [] => []
  | a :: rest => sortInsert cmp a (stableSortBy cmp rest)

structure SortResult where
  sortedRows : List Row
  totalRows : Nat
  column : String
  order : SortOrder
deriving DecidableEq

/-- `ExcelTools.sortData` (`[...rows].sort(...)` copies; the first 100 rows are
returned). -/
def sortData (headers : List String) (rows : List Row) (column : String)
    (order : SortOrder) : Except String SortResult :=
  match headers.findIdx? (headerHasTerm column) with
  | none => Except.error ("Column \"" ++ column ++ "\" not found")
  | some columnIndex =>
    let sortedRows := stableSortBy (rowCompare columnIndex order) rows
    Except.ok
      { sortedRows := sortedRows.take 100
        totalRows := sortedRows.length
        column := column, order := order }

/-- The narrower `switch` of `ExcelTools.createPivotTable` (no `min`/`max`). -/
def pivotReduce (operation : String) (values : List ℚ) : JsNumber :=
  match operation with
  | "sum" => .finite (values.foldl (· + ·) 0)
  | "count" => .finite (values.length : ℚ)
  | "avg" =>
    if values.length = 0 then .nan
    else .finite (values.foldl (· + ·) 0 / (values.length : ℚ))
  | _ => .finite 0

structure PivotResult where
  pivotTable : List GroupEntry
  rowField : String
  valueField : String
  operation : String
  totalGroups : Nat
deriving DecidableEq

/-- `ExcelTools.createPivotTable`. -/
def createPivotTable (headers : List String) (rows : List Row)
    (rowField valueField operation : String) : Except String PivotResult :=
  match headers.findIdx? (headerHasTerm rowField) with
  | none => Except.error ("Row field \"" ++ rowField ++ "\" not found")
  | some rowIndex =>
    match headers.findIdx? (headerHasTerm valueField) with
    | none => Except.error ("Value field \"" ++ valueField ++ "\" not found")
    | some valueIndex =>
      let results := (buildGroups
        (fun row => (jsToNumber (rowGet row valueIndex)).map
          (fun v => (jsToString (rowGet row rowIndex), v))) rows).map
        (fun e => GroupEntry.mk e.1 (pivotReduce operation e.2) e.2.length)
      Except.ok
        { pivotTable := results
          rowField := rowField, valueField := valueField, operation := operation
          totalGroups := results.length }

/-! # EnhancedExcelAgent.validateData -/

/-- `v === null || v === undefined || v === ''`. -/
def isNullish : Cell → Bool
  | .null => true
  | .undef => true
  | .str s => s == ""
  | _ => false

structure ValidationIssue where
  column : String
  nullCount : Nat
  uniqueCount : Option Nat
  totalCount : Option Nat
  nullPercentage : JsNumber
deriving DecidableEq

structure ValidationResult where
  validationIssues : List ValidationIssue
  totalIssues : Nat
deriving DecidableEq

/-- `(nullCount / total) * 100`, NaN on an empty table. -/
def nullPct (nullCount total : Nat) : JsNumber :=
  if total = 0 then .nan else .finite ((nullCount : ℚ) / (total : ℚ) * 100)

/-- `EnhancedExcelAgent.validateData`: with a named column it resolves one-way and
silently reports nothing when the column does not resolve; without one it reports every
column having at least one nullish cell. -/
def validateData (headers : List String) (rows : List Row) (column : Option String) :
    ValidationResult :=
  match column with
  | some c =>
    match headers.findIdx? (headerHasTerm c) with
    | none => { validationIssues := [], totalIssues := 0 }
    | some colIndex =>
      let values := rows.map (fun row => rowGet row colIndex)
      let nullCount := (values.filter isNullish).length
      let issue : ValidationIssue :=
        { column := c
          nullCount := nullCount
          uniqueCount := some values.dedup.length
          totalCount := some values.length
          nullPercentage := nullPct nullCount values.length }
      { validationIssues := [issue], totalIssues := 1 }
  | none =>
    let issues := headers.enum.filterMap (fun p =>
      let values := rows.map (fun row => rowGet row p.1)
      let nullCount := (values.filter isNullish).length
      if nullCount > 0 then
        some { column := p.2, nullCount := nullCount, uniqueCount := none
               totalCount := none, nullPercentage := nullPct nullCount values.length }
      else none)
    { validationIssues := issues, totalIssues := issues.length }

/-! # Auxiliary accessors used in concrete statements -/

/-- The rows of a successful sort (empty on error). -/
def getSortedRows : Except String SortResult → List Row
  | .ok r => r.sortedRows
  | .error _ => []

/-- The numeric sort key of a row at a column (0 for NaN cells; only used for rows whose
cell coerces). -/
def keyOf (columnIndex : Nat) (row : Row) : ℚ := (jsToNumber (rowGet row columnIndex)).getD 0

/-- A 101-row single-column numeric table. -/
def rows101 : List Row := (List.range 101).map (fun i => [Cell.num (i : ℚ)])

/-! # Lemmas about the grouping fold -/

theorem insertVal_keys (gs : List (String × List ℚ)) (k : String) (v : ℚ) :
    (insertVal gs k v).map Prod.fst =
      if k ∈ gs.map Prod.fst then gs.map Prod.fst else gs.map Prod.fst ++ [k] := by
  induction gs with
  | nil => simp [insertVal]
  | cons hd tl ih =>
    obtain ⟨k', vs⟩ := hd
    by_cases hk : k' = k
    · simp [insertVal, hk]
    · simp only [insertVal, if_neg hk, List.map_cons, List.mem_cons, ih]
      have hk' : ¬ k = k' := fun h => hk h.symm
      by_cases hmem : k ∈ tl.map Prod.fst
      · simp [hmem, hk']
      · simp [hmem, hk']

theorem insertVal_mem_keys (gs : List (String × List ℚ)) (k : String) (v : ℚ) (x : String) :
    x ∈ (insertVal gs k v).map Prod.fst ↔ x ∈ gs.map Prod.fst ∨ x = k := by
  rw [insertVal_keys]
  by_cases hmem : k ∈ gs.map Prod.fst
  · simp only [if_pos hmem]
    constructor
    · exact fun h => Or.inl h
    · rintro (h | rfl)
      · exact h
      · exact hmem
  · simp [if_neg hmem]

theorem insertVal_nodupKeys (gs : List (String × List ℚ)) (k : String) (v : ℚ)
    (h : (gs.map Prod.fst).Nodup) : ((insertVal gs k v).map Prod.fst).Nodup := by
  rw [insertVal_keys]
  by_cases hmem : k ∈ gs.map Prod.fst
  · simpa [if_pos hmem]
  · rw [if_neg hmem, ← List.concat_eq_append]
    exact List.Nodup.concat hmem h

theorem insertVal_vals_ne_nil (gs : List (String × List ℚ)) (k : String) (v : ℚ)
    (h : ∀ e ∈ gs, e.2 ≠ []) : ∀ e ∈ insertVal gs k v, e.2 ≠ [] := by
  induction gs with
  | nil =>
    intro e he
    simp only [insertVal, List.mem_singleton] at he
    subst he
    simp
  | cons hd tl ih =>
    obtain ⟨k', vs⟩ := hd
    intro e he
    by_cases hk : k' = k
    · simp only [insertVal, if_pos hk, List.mem_cons] at he
      rcases he with rfl | he
      · simp
      · exact h e (List.mem_cons_of_mem _ he)
    · simp only [insertVal, if_neg hk, List.mem_cons] at he
      rcases he with rfl | he
      · exact h _ (List.mem_cons_self _ _)
      · exact ih (fun e' he' => h e' (List.mem_cons_of_mem _ he')) e he

/-- Total of all collected values across groups. -/
def sumVals (gs : List (String × List ℚ)) : ℚ := (gs.map (fun e => e.2.sum)).sum

theorem insertVal_sumVals (gs : List (String × List ℚ)) (k : String) (v : ℚ) :
    sumVals (insertVal gs k v) = sumVals gs + v := by
  induction gs with
  | nil => simp [insertVal, sumVals]
  | cons hd tl ih =>
    obtain ⟨k', vs⟩ := hd
    by_cases hk : k' = k
    · simp only [insertVal, if_pos hk, sumVals, List.map_cons, List.sum_cons,
        List.sum_append, List.sum_cons, List.sum_nil]
      ring
    · simp only [insertVal, if_neg hk, sumVals, List.map_cons, List.sum_cons] at ih ⊢
      rw [ih]
      ring

/-- One step of the grouping fold. -/
def groupStep (kv : Row → Option (String × ℚ)) (gs : List (String × List ℚ)) (row : Row) :
    List (String × List ℚ) :=
  match kv row with
  | some (k, v) => insertVal gs k v
  | none => gs

theorem buildGroups_eq_foldl (kv : Row → Option (String × ℚ)) (rows : List Row) :
    buildGroups kv rows = rows.foldl (groupStep kv) [] := rfl

theorem groupStep_mem_keys (kv : Row → Option (String × ℚ)) (gs : List (String × List ℚ))
    (r : Row) (x : String) :
    x ∈ (groupStep kv gs r).map Prod.fst ↔
      x ∈ gs.map Prod.fst ∨ ∃ v, kv r = some (x, v) := by
  unfold groupStep
  cases hkv : kv r with
  | none => simp
  | some p =>
    obtain ⟨k, v⟩ := p
    rw [insertVal_mem_keys]
    constructor
    · rintro (h | rfl)
      · exact Or.inl h
      · exact Or.inr ⟨v, rfl⟩
    · rintro (h | ⟨v', hv'⟩)
      · exact Or.inl h
      · injection hv' with hp
        exact Or.inr (congrArg Prod.fst hp).symm

theorem foldl_groupStep_mem_keys (kv : Row → Option (String × ℚ)) (rows : List Row)
    (gs : List (String × List ℚ)) (x : String) :
    x ∈ ((rows.foldl (groupStep kv) gs).map Prod.fst) ↔
      x ∈ gs.map Prod.fst ∨ ∃ r ∈ rows, ∃ v, kv r = some (x, v) := by
  induction rows generalizing gs with
  | nil => simp
  | cons r rest ih =>
    rw [List.foldl_cons, ih, groupStep_mem_keys]
    constructor
    · rintro ((h | ⟨v, hv⟩) | ⟨r', hr', v, hv⟩)
      · exact Or.inl h
      · exact Or.inr ⟨r, (List.mem_cons_self _ _), v, hv⟩
      · exact Or.inr ⟨r', List.mem_cons_of_mem _ hr', v, hv⟩
    · rintro (h | ⟨r', hr', v, hv⟩)
      · exact Or.inl (Or.inl h)
      · rcases List.mem_cons.mp hr' with rfl | hr'
        · exact Or.inl (Or.inr ⟨v, hv⟩)
        · exact Or.inr ⟨r', hr', v, hv⟩

theorem buildGroups_mem_keys (kv : Row → Option (String × ℚ)) (rows : List Row) (x : String) :
    x ∈ (buildGroups kv rows).map Prod.fst ↔ ∃ r ∈ rows, ∃ v, kv r = some (x, v) := by
  rw [buildGroups_eq_foldl, foldl_groupStep_mem_keys]
  simp

theorem foldl_groupStep_nodupKeys (kv : Row → Option (String × ℚ)) (rows : List Row)
    (gs : List (String × List ℚ)) (h : (gs.map Prod.fst).Nodup) :
    ((rows.foldl (groupStep kv) gs).map Prod.fst).Nodup := by
  induction rows generalizing gs with
  | nil => simpa
  | cons r rest ih =>
    rw [List.foldl_cons]
    refine ih _ ?_
    unfold groupStep
    cases hkv : kv r with
    | none => exact h
    | some p => exact insertVal_nodupKeys _ _ _ h

theorem buildGroups_nodupKeys (kv : Row → Option (String × ℚ)) (rows : List Row) :
    ((buildGroups kv rows).map Prod.fst).Nodup := by
  rw [buildGroups_eq_foldl]
  exact foldl_groupStep_nodupKeys kv rows [] (by simp)

theorem foldl_groupStep_vals_ne_nil (kv : Row → Option (String × ℚ)) (rows : List Row)
    (gs : List (String × List ℚ)) (h : ∀ e ∈ gs, e.2 ≠ []) :
    ∀ e ∈ rows.foldl (groupStep kv) gs, e.2 ≠ [] := by
  induction rows generalizing gs with
  | nil => exact h
  | cons r rest ih =>
    rw [List.foldl_cons]
    refine ih _ ?_
    unfold groupStep
    cases hkv : kv r with
    | none => exact h
    | some p => exact insertVal_vals_ne_nil _ _ _ h

theorem buildGroups_vals_ne_nil (kv : Row → Option (String × ℚ)) (rows : List Row) :
    ∀ e ∈ buildGroups kv rows, e.2 ≠ [] := by
  rw [buildGroups_eq_foldl]
  exact foldl_groupStep_vals_ne_nil kv rows [] (by simp)

theorem foldl_groupStep_sumVals (kv : Row → Option (String × ℚ)) (rows : List Row)
    (gs : List (String × List ℚ)) :
    sumVals (rows.foldl (groupStep kv) gs) =
      sumVals gs + ((rows.filterMap kv).map Prod.snd).sum := by
  induction rows generalizing gs with
  | nil => simp
  | cons r rest ih =>
    rw [List.foldl_cons, ih]
    unfold groupStep
    cases hkv : kv r with
    | none => simp [hkv]
    | some p =>
      obtain ⟨k, v⟩ := p
      rw [insertVal_sumVals]
      simp [hkv]
      ring

theorem buildGroups_sumVals (kv : Row → Option (String × ℚ)) (rows : List Row) :
    sumVals (buildGroups kv rows) = ((rows.filterMap kv).map Prod.snd).sum := by
  rw [buildGroups_eq_foldl, foldl_groupStep_sumVals]
  simp [sumVals]

/-! # Lemmas about left folds of `+` and `min` -/

theorem foldl_add_eq_sum (l : List ℚ) (a : ℚ) : l.foldl (· + ·) a = a + l.sum := by
  induction l generalizing a with
  | nil => simp
  | cons x xs ih =>
    rw [List.foldl_cons, ih, List.sum_cons]
    ring

theorem foldl_min_le_mem (l : List ℚ) (a : ℚ) :
    l.foldl min a ≤ a ∧ ∀ x ∈ l, l.foldl min a ≤ x := by
  induction l generalizing a with
  | nil => simp
  | cons b bs ih =>
    rw [List.foldl_cons]
    obtain ⟨h1, h2⟩ := ih (min a b)
    refine ⟨le_trans h1 (min_le_left a b), ?_⟩
    intro x hx
    rcases List.mem_cons.mp hx with rfl | hx
    · exact le_trans h1 (min_le_right a x)
    · exact h2 x hx

theorem foldl_min_nonneg (l : List ℚ) (a : ℚ) (ha : 0 ≤ a) (h : ∀ x ∈ l, 0 ≤ x) :
    0 ≤ l.foldl min a := by
  induction l generalizing a with
  | nil => simpa
  | cons b bs ih =>
    rw [List.foldl_cons]
    exact ih (min a b) (le_min ha (h b (List.mem_cons_self _ _)))
      (fun x hx => h x (List.mem_cons_of_mem _ hx))

theorem foldl_min_eq_zero (l : List ℚ) (a : ℚ) (ha : 0 ≤ a) (h : ∀ x ∈ l, 0 ≤ x)
    (h0 : a = 0 ∨ 0 ∈ l) : l.foldl min a = 0 := by
  refine le_antisymm ?_ (foldl_min_nonneg l a ha h)
  rcases h0 with rfl | h0
  · exact (foldl_min_le_mem l 0).1
  · exact (foldl_min_le_mem l a).2 0 h0

/-! # Lemmas about the stable sort -/

theorem sortInsert_perm (cmp : α → α → Ordering) (a : α) (l : List α) :
    (sortInsert cmp a l).Perm (a :: l) := by
  induction l with
  | nil => simp [sortInsert]
  | cons b bs ih =>
    unfold sortInsert
    by_cases hc : cmp b a = Ordering.lt
    · rw [if_pos hc]
      exact (ih.cons b).trans (List.Perm.swap a b bs)
    · rw [if_neg hc]

theorem stableSortBy_perm (cmp : α → α → Ordering) (l : List α) :
    (stableSortBy cmp l).Perm l := by
  induction l with
  | nil => simp [stableSortBy]
  | cons a rest ih =>
    exact (sortInsert_perm cmp a (stableSortBy cmp rest)).trans (ih.cons a)

theorem sortInsert_pairwise (k : α → ℚ) (cmp : α → α → Ordering) (a : α) (l : List α)
    (hcmp : ∀ x ∈ l, (cmp x a = Ordering.lt ↔ k x < k a))
    (hl : l.Pairwise (fun x y => k x ≤ k y)) :
    (sortInsert cmp a l).Pairwise (fun x y => k x ≤ k y) := by
  induction l with
  | nil => simp [sortInsert]
  | cons b bs ih =>
    rw [List.pairwise_cons] at hl
    obtain ⟨hb, hbs⟩ := hl
    unfold sortInsert
    by_cases hc : cmp b a = Ordering.lt
    · rw [if_pos hc]
      rw [List.pairwise_cons]
      constructor
      · intro x hx
        rcases List.mem_cons.mp ((sortInsert_perm cmp a bs).mem_iff.mp hx) with rfl | h
        · exact le_of_lt ((hcmp b (List.mem_cons_self _ _)).mp hc)
        · exact hb x h
      · exact ih (fun x hx => hcmp x (List.mem_cons_of_mem _ hx)) hbs
    · rw [if_neg hc]
      have hab : k a ≤ k b := by
        have := (hcmp b (List.mem_cons_self _ _)).not
        rw [not_lt] at this
        exact this.mp hc
      rw [List.pairwise_cons]
      constructor
      · intro x hx
        rcases List.mem_cons.mp hx with rfl | hx
        · exact hab
        · exact le_trans hab (hb x hx)
      · exact List.Pairwise.cons hb hbs

theorem stableSortBy_pairwise (k : α → ℚ) (cmp : α → α → Ordering) (l : List α)
    (hcmp : ∀ x ∈ l, ∀ y ∈ l, (cmp x y = Ordering.lt ↔ k x < k y)) :
    (stableSortBy cmp l).Pairwise (fun x y => k x ≤ k y) := by
  induction l with
  | nil => simp [stableSortBy]
  | cons a rest ih =>
    unfold stableSortBy
    refine sortInsert_pairwise k cmp a _ ?_ ?_
    · intro x hx
      have hx' : x ∈ rest := (stableSortBy_perm cmp rest).mem_iff.mp hx
      exact hcmp x (List.mem_cons_of_mem _ hx') a (List.mem_cons_self _ _)
    · exact ih (fun x hx y hy =>
        hcmp x (List.mem_cons_of_mem _ hx) y (List.mem_cons_of_mem _ hy))

/-! # Further helpers used by the claim statements -/

/-- The finite value of a JS numeric result (`0` for NaN and the infinities). -/
def finiteValue : JsNumber → ℚ
  | .finite q => q
  | _ => 0

/-- A 150-row table in which every row matches a `> 0` filter on column 0. -/
def rows150 : List Row := List.replicate 150 [Cell.num 1]

theorem aggVals_eq_filterMap (rows : List Row) (ci : Nat) :
    aggVals rows ci = rows.filterMap (fun row => jsToNumber (rowGet row ci)) := by
  unfold aggVals
  rw [List.filterMap_map]
  rfl

theorem normalizeColumnName_eq_aux (c : String) :
    normalizeColumnName c =
      (match synonyms.find? (fun p => p.2.any (fun syn => strContains (cleanName c) syn)) with
       | some p => p.1
       | none => collapseWs '_' (cleanName c)) := by
  by_cases hc : c = ""
  · subst hc
    decide
  · simp only [normalizeColumnName, if_neg hc]

theorem normalizeColumnName_congr {a b : String} (h : cleanName a = cleanName b) :
    normalizeColumnName a = normalizeColumnName b := by
  rw [normalizeColumnName_eq_aux, normalizeColumnName_eq_aux, h]

theorem cmpQ_eq_lt_iff (x y : ℚ) : cmpQ x y = Ordering.lt ↔ x < y := by
  unfold cmpQ
  by_cases h : x < y
  · simp [h]
  · by_cases h2 : x = y <;> simp [h, h2]

/-! # Claims -/

/-- C9: the cleaned form of `"Unit Price"` contains no alias substring of the fixed
synonym table (in particular none of the `price` aliases `cost`, `rate`, `value`,
`amount`), so `normalizeColumnName` falls through to the slug form `"unit_price"` and
returns no canonical field name. -/
theorem c9_unit_price_slug :
    (synonyms.all (fun p => p.2.all (fun syn => !strContains (cleanName "Unit Price") syn)))
        = true ∧
      normalizeColumnName "Unit Price" = "unit_price" := by
  decide

/-- C4 counterexample: the query `"Amount"` is literally a member of
`["Qty", "Amount"]`, yet `findBestMatch` returns `"Qty"`, because `"Qty"` and
`"Amount"` both normalize to the canonical name `"quantity"` and the earlier header wins
the exact-normalized-match stage. -/
theorem c4_counterexample :
    findBestMatch "Amount" ["Qty", "Amount"] ≠ "Amount" ∧
      findBestMatch "Amount" ["Qty", "Amount"] = "Qty" := by
  decide

/-- C4 amended: if the query term `q` equals some header `h` of `H` up to case,
whitespace and punctuation (same cleaned form), then `findBestMatch q H` returns the
first header of `H` whose normalized form equals that of `q` — which is `h` itself
whenever no earlier header shares the normalized form, but may be an earlier
synonym-equivalent header otherwise. -/
theorem c4_amended_first_normalized_match (q : String) (H : List String) (h : String)
    (hmem : h ∈ H) (hclean : cleanName h = cleanName q) :
    ∃ first,
      H.find? (fun col => normalizeColumnName col == normalizeColumnName q) = some first ∧
      findBestMatch q H = first ∧
      normalizeColumnName first = normalizeColumnName q := by
  have hpred : (fun col => normalizeColumnName col == normalizeColumnName q) h = true := by
    simp [normalizeColumnName_congr hclean]
  have hsome : (H.find? (fun col => normalizeColumnName col == normalizeColumnName q)).isSome := by
    rw [List.find?_isSome]
    exact ⟨h, hmem, hpred⟩
  obtain ⟨first, hfirst⟩ := Option.isSome_iff_exists.mp hsome
  refine ⟨first, hfirst, ?_, ?_⟩
  · simp only [findBestMatch, hfirst]
  · have := List.find?_some hfirst
    simpa using this

/-- C4 amended, witnessed at `q = "Amount"`, `H = ["Qty", "Amount"]`, `h = "Amount"`. -/
theorem c4_amended_witness :
    ∃ first,
      ["Qty", "Amount"].find?
          (fun col => normalizeColumnName col == normalizeColumnName "Amount") = some first ∧
      findBestMatch "Amount" ["Qty", "Amount"] = first ∧
      normalizeColumnName first = normalizeColumnName "Amount" :=
  c4_amended_first_normalized_match "Amount" ["Qty", "Amount"] "Amount"
    (by decide) (by decide)

/-- C3 counterexample: with header list `["Price"]` and column argument
`"Unit Price"`, the two-way containment rule matches (the term contains the header),
and `filterData` accordingly succeeds, yet `aggregateData`, `sortData` and
`createPivotTable` all fail: their lookup is one-way (header must contain the term). -/
theorem c3_counterexample :
    headerMatchesTerm "Unit Price" "Price" = true ∧
      (filterData ["Price"] [] "Unit Price" ">" (Cell.num 0)).isOk = true ∧
      aggregateData ["Price"] [] "Unit Price" "sum" none =
        Except.error "Column \"Unit Price\" not found" ∧
      sortData ["Price"] [] "Unit Price" SortOrder.asc =
        Except.error "Column \"Unit Price\" not found" ∧
      createPivotTable ["Price"] [] "Unit Price" "Unit Price" "sum" =
        Except.error "Row field \"Unit Price\" not found" := by
  decide

/-- C3 amended: `filterData` looks its column up by the two-way containment rule, while
`aggregateData`, `sortData` and `createPivotTable` use the one-way rule (lower-cased
header contains the term); each operation fails with an error naming the requested
column exactly when its own rule matches no header, and succeeds on that column's
lookup otherwise. -/
theorem c3_amended_lookup_rules (headers : List String) (rows : List Row)
    (column operator operation valueField : String) (value : Cell)
    (groupBy : Option String) (order : SortOrder) :
    (headers.findIdx? (headerMatchesTerm column) = none →
      filterData headers rows column operator value =
        Except.error ("Column \"" ++ column ++ "\" not found")) ∧
    ((headers.findIdx? (headerMatchesTerm column)).isSome = true →
      (filterData headers rows column operator value).isOk = true) ∧
    (headers.findIdx? (headerHasTerm column) = none →
      aggregateData headers rows column operation groupBy =
        Except.error ("Column \"" ++ column ++ "\" not found")) ∧
    ((headers.findIdx? (headerHasTerm column)).isSome = true →
      (aggregateData headers rows column operation none).isOk = true) ∧
    (headers.findIdx? (headerHasTerm column) = none →
      sortData headers rows column order =
        Except.error ("Column \"" ++ column ++ "\" not found")) ∧
    ((headers.findIdx? (headerHasTerm column)).isSome = true →
      (sortData headers rows column order).isOk = true) ∧
    (headers.findIdx? (headerHasTerm column) = none →
      createPivotTable headers rows column valueField operation =
        Except.error ("Row field \"" ++ column ++ "\" not found")) ∧
    ((headers.findIdx? (headerHasTerm column)).isSome = true →
      (headers.findIdx? (headerHasTerm valueField)).isSome = true →
      (createPivotTable headers rows column valueField operation).isOk = true) := by
  refine ⟨?_, ?_, ?_, ?_, ?_, ?_, ?_, ?_⟩
  · intro h
    simp [filterData, h]
  · intro h
    obtain ⟨i, hi⟩ := Option.isSome_iff_exists.mp h
    simp [filterData, hi, Except.isOk, Except.toBool]
  · intro h
    simp [aggregateData, h]
  · intro h
    obtain ⟨i, hi⟩ := Option.isSome_iff_exists.mp h
    simp [aggregateData, hi, Except.isOk, Except.toBool]
  · intro h
    simp [sortData, h]
  · intro h
    obtain ⟨i, hi⟩ := Option.isSome_iff_exists.mp h
    simp [sortData, hi, Except.isOk, Except.toBool]
  · intro h
    simp [createPivotTable, h]
  · intro h hv
    obtain ⟨i, hi⟩ := Option.isSome_iff_exists.mp h
    obtain ⟨j, hj⟩ := Option.isSome_iff_exists.mp hv
    simp [createPivotTable, hi, hj, Except.isOk, Except.toBool]

/-- C3 amended, witnessed at headers `["Price"]` with terms `"Unit Price"` (one-way
fails, two-way succeeds) and `"price"` (both succeed). -/
theorem c3_amended_witness :
    (filterData ["Price"] [] "Unit Price" ">" (Cell.num 0)).isOk = true ∧
      aggregateData ["Price"] [] "Unit Price" "sum" none =
        Except.error "Column \"Unit Price\" not found" ∧
      sortData ["Price"] [] "Unit Price" SortOrder.asc =
        Except.error "Column \"Unit Price\" not found" ∧
      createPivotTable ["Price"] [] "Unit Price" "price" "sum" =
        Except.error "Row field \"Unit Price\" not found" ∧
      (sortData ["Price"] [] "price" SortOrder.asc).isOk = true := by
  refine ⟨?_, ?_, ?_, ?_, ?_⟩
  · exact (c3_amended_lookup_rules ["Price"] [] "Unit Price" ">" "sum" "price" (Cell.num 0)
      none SortOrder.asc).2.1 (by decide)
  · exact (c3_amended_lookup_rules ["Price"] [] "Unit Price" ">" "sum" "price" (Cell.num 0)
      none SortOrder.asc).2.2.1 (by decide)
  · exact (c3_amended_lookup_rules ["Price"] [] "Unit Price" ">" "sum" "price" (Cell.num 0)
      none SortOrder.asc).2.2.2.2.1 (by decide)
  · exact (c3_amended_lookup_rules ["Price"] [] "Unit Price" ">" "sum" "price" (Cell.num 0)
      none SortOrder.asc).2.2.2.2.2.2.1 (by decide)
  · exact (c3_amended_lookup_rules ["Price"] [] "price" ">" "sum" "price" (Cell.num 0)
      none SortOrder.asc).2.2.2.2.2.1 (by decide)

/-- C8: when no header matches the requested column even under the two-way containment
rule, `validateData` silently returns an empty issue list (`totalIssues = 0`) and no
error, whereas `filterData`, `aggregateData`, `sortData` and `createPivotTable` fail
with a column-not-found error naming the column. -/
theorem c8_validate_silent (headers : List String) (rows : List Row)
    (column operator operation valueField : String) (value : Cell)
    (groupBy : Option String) (order : SortOrder)
    (h : ∀ hd ∈ headers, headerMatchesTerm column hd = false) :
    validateData headers rows (some column) = ⟨[], 0⟩ ∧
      filterData headers rows column operator value =
        Except.error ("Column \"" ++ column ++ "\" not found") ∧
      aggregateData headers rows column operation groupBy =
        Except.error ("Column \"" ++ column ++ "\" not found") ∧
      sortData headers rows column order =
        Except.error ("Column \"" ++ column ++ "\" not found") ∧
      createPivotTable headers rows column valueField operation =
        Except.error ("Row field \"" ++ column ++ "\" not found") := by
  have h1 : headers.findIdx? (headerMatchesTerm column) = none :=
    List.findIdx?_eq_none_iff.mpr h
  have h2 : headers.findIdx? (headerHasTerm column) = none := by
    refine List.findIdx?_eq_none_iff.mpr (fun x hx => ?_)
    have hx2 := h x hx
    unfold headerMatchesTerm at hx2
    exact (Bool.or_eq_false_iff.mp hx2).1
  refine ⟨?_, ?_, ?_, ?_, ?_⟩
  · simp [validateData, h2]
  · simp [filterData, h1]
  · simp [aggregateData, h2]
  · simp [sortData, h2]
  · simp [createPivotTable, h2]

/-- C8, witnessed at headers `["Alpha"]` and column `"zzz"`. -/
theorem c8_witness :
    validateData ["Alpha"] [[Cell.num 1]] (some "zzz") = ⟨[], 0⟩ ∧
      filterData ["Alpha"] [[Cell.num 1]] "zzz" ">" (Cell.num 0) =
        Except.error "Column \"zzz\" not found" ∧
      aggregateData ["Alpha"] [[Cell.num 1]] "zzz" "sum" none =
        Except.error "Column \"zzz\" not found" ∧
      sortData ["Alpha"] [[Cell.num 1]] "zzz" SortOrder.asc =
        Except.error "Column \"zzz\" not found" ∧
      createPivotTable ["Alpha"] [[Cell.num 1]] "zzz" "alpha" "sum" =
        Except.error "Row field \"zzz\" not found" :=
  c8_validate_silent ["Alpha"] [[Cell.num 1]] "zzz" ">" "sum" "alpha" (Cell.num 0)
    none SortOrder.asc (by decide)

/-- C1: on a resolvable column, `filterData` returns in `filteredRows` the first
`min(100, n)` matching rows in original row order and reports the uncapped total `n` in
`totalMatches`; in particular `totalMatches = 150` forces exactly 100 returned rows. -/
theorem c1_filter_cap (headers : List String) (rows : List Row) (column operator : String)
    (value : Cell) (ci : Nat)
    (h : headers.findIdx? (headerMatchesTerm column) = some ci) :
    ∃ res, filterData headers rows column operator value = Except.ok res ∧
      res.filteredRows =
        (rows.filter (fun row => matchesOp (rowGet row ci) operator value)).take 100 ∧
      res.totalMatches =
        (rows.filter (fun row => matchesOp (rowGet row ci) operator value)).length ∧
      res.filteredRows.Sublist rows ∧
      res.filteredRows.length = min 100 res.totalMatches ∧
      (res.totalMatches = 150 → res.filteredRows.length = 100) := by
  have heq : filterData headers rows column operator value = Except.ok
      { filteredRows :=
          (rows.filter (fun row => matchesOp (rowGet row ci) operator value)).take 100
        totalMatches :=
          (rows.filter (fun row => matchesOp (rowGet row ci) operator value)).length
        column := column, operator := operator, value := value } := by
    simp [filterData, h]
  refine ⟨_, heq, rfl, rfl, ?_, ?_, ?_⟩
  · exact (List.take_sublist _ _).trans (List.filter_sublist _)
  · simp [List.length_take]
  · intro h150
    simp only [List.length_take]
    simp only at h150
    omega

/-- C1, witnessed on a table with 150 matching rows: 100 returned, 150 reported. -/
theorem c1_witness :
    ∃ res, filterData ["A"] rows150 "a" ">" (Cell.num 0) = Except.ok res ∧
      res.filteredRows.length = 100 ∧ res.totalMatches = 150 := by
  obtain ⟨res, hres, hrows, htot, hsub, hlen, h150⟩ :=
    c1_filter_cap ["A"] rows150 "a" ">" (Cell.num 0) 0 (by decide)
  have ht : res.totalMatches = 150 := by rw [htot]; decide
  exact ⟨res, hres, h150 ht, ht⟩

/-- C2 counterexample: the group `"a"` contains zero numeric target values and the
grouped result omits it entirely — there is no entry with `count = 0` as the claim
requires. -/
theorem c2_counterexample :
    aggregateData ["G", "V"] [[Cell.str "a", Cell.str "x"]] "v" "count" (some "g") =
      Except.ok (AggOutput.grouped "count" "v" "g" []) := by
  decide

/-- C2 amended: the grouped result of `aggregateData` contains exactly one entry for
each distinct stringified group value occurring in rows whose target cell coerces to a
number; groups all of whose target values are non-numeric are omitted entirely, and
every emitted entry has `count ≥ 1`, so no empty-group reduction (and no `Infinity`)
can arise. -/
theorem c2_amended_groups (headers : List String) (rows : List Row)
    (column operation g : String) (ci gi : Nat)
    (hc : headers.findIdx? (headerHasTerm column) = some ci)
    (hg : headers.findIdx? (headerHasTerm g) = some gi)
    (hgne : g ≠ "") :
    ∃ results,
      aggregateData headers rows column operation (some g) =
        Except.ok (AggOutput.grouped operation column g results) ∧
      (results.map GroupEntry.group).Nodup ∧
      (∀ key, key ∈ results.map GroupEntry.group ↔
        ∃ r ∈ rows, (jsToNumber (rowGet r ci)).isSome = true ∧
          jsToString (rowGet r gi) = key) ∧
      (∀ e ∈ results, 1 ≤ e.count) := by
  have heq : aggregateData headers rows column operation (some g) =
      Except.ok (AggOutput.grouped operation column g
        ((buildGroups (fun row => (jsToNumber (rowGet row ci)).map
            (fun v => (jsToString (rowGet row gi), v))) rows).map
          (fun e => (⟨e.1, reduceOp operation e.2, e.2.length⟩ : GroupEntry)))) := by
    simp [aggregateData, hc, hg, hgne]
  refine ⟨_, heq, ?_, ?_, ?_⟩
  all_goals
    have hmap :
        ((buildGroups (fun row => (jsToNumber (rowGet row ci)).map
            (fun v => (jsToString (rowGet row gi), v))) rows).map
          (fun e => (⟨e.1, reduceOp operation e.2, e.2.length⟩ : GroupEntry))).map
            GroupEntry.group =
          (buildGroups (fun row => (jsToNumber (rowGet row ci)).map
            (fun v => (jsToString (rowGet row gi), v))) rows).map Prod.fst := by
      rw [List.map_map]
      rfl
  · rw [hmap]
    exact buildGroups_nodupKeys _ _
  · intro key
    rw [hmap, buildGroups_mem_keys]
    constructor
    · rintro ⟨r, hr, v, hv⟩
      cases hn : jsToNumber (rowGet r ci) with
      | none => rw [hn] at hv; simp at hv
      | some q =>
        rw [hn] at hv
        have hv' : some (jsToString (rowGet r gi), q) = some (key, v) := hv
        injection hv' with hp
        exact ⟨r, hr, by simp [hn], (congrArg Prod.fst hp)⟩
    · rintro ⟨r, hr, hsome, hkey⟩
      obtain ⟨q, hq⟩ := Option.isSome_iff_exists.mp hsome
      exact ⟨r, hr, q, by simp [hq, hkey]⟩
  · intro e he
    obtain ⟨p, hp, hpe⟩ := List.mem_map.mp he
    have hne := buildGroups_vals_ne_nil _ rows p hp
    have hpos : 0 < p.2.length := List.length_pos.mpr hne
    rw [← hpe]
    exact hpos

/-- C2 amended, witnessed on a one-numeric-row table whose group `"a"` appears. -/
theorem c2_amended_witness :
    ∃ results,
      aggregateData ["G", "V"] [[Cell.str "a", Cell.num 1]] "v" "count" (some "g") =
        Except.ok (AggOutput.grouped "count" "v" "g" results) ∧
      "a" ∈ results.map GroupEntry.group := by
  obtain ⟨results, h1, h2, h3, h4⟩ :=
    c2_amended_groups ["G", "V"] [[Cell.str "a", Cell.num 1]] "v" "count" "g" 1 0
      (by decide) (by decide) (by decide)
  refine ⟨results, h1, (h3 "a").mpr ⟨[Cell.str "a", Cell.num 1], ?_, ?_, ?_⟩⟩
  · simp
  · decide
  · decide

/-- C5: for a table whose every target-column cell coerces to a number, the ungrouped
`aggregateData(column, "sum")` result equals the sum of the per-group results of
`aggregateData(column, "sum", groupBy)` over all groups. -/
theorem c5_sum_partition (headers : List String) (rows : List Row) (column g : String)
    (ci gi : Nat)
    (hc : headers.findIdx? (headerHasTerm column) = some ci)
    (hg : headers.findIdx? (headerHasTerm g) = some gi)
    (hgne : g ≠ "")
    (_hnum : ∀ r ∈ rows, (jsToNumber (rowGet r ci)).isSome = true) :
    ∃ results,
      aggregateData headers rows column "sum" (some g) =
        Except.ok (AggOutput.grouped "sum" column g results) ∧
      aggregateData headers rows column "sum" none =
        Except.ok (AggOutput.simple "sum" column
          (JsNumber.finite ((results.map (fun e => finiteValue e.result)).sum))
          (aggVals rows ci).length) := by
  have heqg : aggregateData headers rows column "sum" (some g) =
      Except.ok (AggOutput.grouped "sum" column g
        ((buildGroups (fun row => (jsToNumber (rowGet row ci)).map
            (fun v => (jsToString (rowGet row gi), v))) rows).map
          (fun e => (⟨e.1, reduceOp "sum" e.2, e.2.length⟩ : GroupEntry)))) := by
    simp [aggregateData, hc, hg, hgne]
  refine ⟨_, heqg, ?_⟩
  have hcomp :
      (((buildGroups (fun row => (jsToNumber (rowGet row ci)).map
            (fun v => (jsToString (rowGet row gi), v))) rows).map
          (fun e => (⟨e.1, reduceOp "sum" e.2, e.2.length⟩ : GroupEntry))).map
        (fun e => finiteValue e.result)).sum = (aggVals rows ci).sum := by
    rw [List.map_map]
    have hfun : ((fun e => finiteValue e.result) ∘
          (fun e => (⟨e.1, reduceOp "sum" e.2, e.2.length⟩ : GroupEntry))) =
        (fun e : String × List ℚ => e.2.sum) := by
      funext e
      show finiteValue (reduceOp "sum" e.2) = e.2.sum
      simp [reduceOp, finiteValue, foldl_add_eq_sum]
    rw [hfun]
    have hsv : ((buildGroups (fun row => (jsToNumber (rowGet row ci)).map
          (fun v => (jsToString (rowGet row gi), v))) rows).map
        (fun e : String × List ℚ => e.2.sum)).sum =
        ((rows.filterMap (fun row => (jsToNumber (rowGet row ci)).map
          (fun v => (jsToString (rowGet row gi), v)))).map Prod.snd).sum :=
      buildGroups_sumVals _ rows
    have hfeq : (fun x => Option.map Prod.snd
          (Option.map (fun v => (jsToString (rowGet x gi), v)) (jsToNumber (rowGet x ci)))) =
        (fun row => jsToNumber (rowGet row ci)) := by
      funext r
      cases h : jsToNumber (rowGet r ci) <;> simp [h]
    rw [hsv, List.map_filterMap, aggVals_eq_filterMap, hfeq]
  rw [hcomp]
  simp [aggregateData, hc, reduceOp, foldl_add_eq_sum]

/-- C5, witnessed on a three-row two-group numeric table. -/
theorem c5_witness :
    ∃ results,
      aggregateData ["G", "V"] [[Cell.str "a", Cell.num 1], [Cell.str "b", Cell.num 2],
          [Cell.str "a", Cell.num 3]] "v" "sum" (some "g") =
        Except.ok (AggOutput.grouped "sum" "v" "g" results) ∧
      aggregateData ["G", "V"] [[Cell.str "a", Cell.num 1], [Cell.str "b", Cell.num 2],
          [Cell.str "a", Cell.num 3]] "v" "sum" none =
        Except.ok (AggOutput.simple "sum" "v"
          (JsNumber.finite ((results.map (fun e => finiteValue e.result)).sum))
          (aggVals [[Cell.str "a", Cell.num 1], [Cell.str "b", Cell.num 2],
            [Cell.str "a", Cell.num 3]] 1).length) :=
  c5_sum_partition ["G", "V"] [[Cell.str "a", Cell.num 1], [Cell.str "b", Cell.num 2],
      [Cell.str "a", Cell.num 3]] "v" "g" 1 0 (by decide) (by decide) (by decide) (by decide)

/-- C6: the group keys of `createPivotTable` are exactly the distinct stringified
`rowField` values occurring in rows whose `valueField` cell coerces to a number, with
exactly one record per distinct value and no cap on the number of groups
(`totalGroups` is the full record count). -/
theorem c6_pivot_groups (headers : List String) (rows : List Row)
    (rowField valueField operation : String) (ri vi : Nat)
    (hr : headers.findIdx? (headerHasTerm rowField) = some ri)
    (hv : headers.findIdx? (headerHasTerm valueField) = some vi) :
    ∃ res, createPivotTable headers rows rowField valueField operation = Except.ok res ∧
      (res.pivotTable.map GroupEntry.group).Nodup ∧
      (∀ key, key ∈ res.pivotTable.map GroupEntry.group ↔
        ∃ r ∈ rows, (jsToNumber (rowGet r vi)).isSome = true ∧
          jsToString (rowGet r ri) = key) ∧
      res.totalGroups = res.pivotTable.length ∧
      (∀ e ∈ res.pivotTable, 1 ≤ e.count) := by
  have heq : createPivotTable headers rows rowField valueField operation =
      Except.ok
        { pivotTable := (buildGroups (fun row => (jsToNumber (rowGet row vi)).map
              (fun v => (jsToString (rowGet row ri), v))) rows).map
            (fun e => GroupEntry.mk e.1 (pivotReduce operation e.2) e.2.length)
          rowField := rowField, valueField := valueField, operation := operation
          totalGroups := ((buildGroups (fun row => (jsToNumber (rowGet row vi)).map
              (fun v => (jsToString (rowGet row ri), v))) rows).map
            (fun e => GroupEntry.mk e.1 (pivotReduce operation e.2) e.2.length)).length } := by
    simp [createPivotTable, hr, hv]
  refine ⟨_, heq, ?_, ?_, rfl, ?_⟩
  all_goals
    have hmap :
        ((buildGroups (fun row => (jsToNumber (rowGet row vi)).map
            (fun v => (jsToString (rowGet row ri), v))) rows).map
          (fun e => GroupEntry.mk e.1 (pivotReduce operation e.2) e.2.length)).map
            GroupEntry.group =
          (buildGroups (fun row => (jsToNumber (rowGet row vi)).map
            (fun v => (jsToString (rowGet row ri), v))) rows).map Prod.fst := by
      rw [List.map_map]
      rfl
  · rw [hmap]
    exact buildGroups_nodupKeys _ _
  · intro key
    rw [hmap, buildGroups_mem_keys]
    constructor
    · rintro ⟨r, hrr, v, hvv⟩
      cases hn : jsToNumber (rowGet r vi) with
      | none => rw [hn] at hvv; simp at hvv
      | some q =>
        rw [hn] at hvv
        have hv' : some (jsToString (rowGet r ri), q) = some (key, v) := hvv
        injection hv' with hp
        exact ⟨r, hrr, by simp [hn], (congrArg Prod.fst hp)⟩
    · rintro ⟨r, hrr, hsome, hkey⟩
      obtain ⟨q, hq⟩ := Option.isSome_iff_exists.mp hsome
      exact ⟨r, hrr, q, by simp [hq, hkey]⟩
  · intro e he
    obtain ⟨p, hp, hpe⟩ := List.mem_map.mp he
    have hne := buildGroups_vals_ne_nil _ rows p hp
    have hpos : 0 < p.2.length := List.length_pos.mpr hne
    rw [← hpe]
    exact hpos

/-- C6, witnessed on a table whose second row has a non-numeric value cell: only the
groups `"a"` and `"c"` appear. -/
theorem c6_witness :
    ∃ res, createPivotTable ["G", "V"]
        [[Cell.str "a", Cell.num 1], [Cell.str "b", Cell.str "x"], [Cell.str "c", Cell.null]]
        "g" "v" "count" = Except.ok res ∧
      "a" ∈ res.pivotTable.map GroupEntry.group ∧
      ¬ "b" ∈ res.pivotTable.map GroupEntry.group ∧
      res.totalGroups = res.pivotTable.length := by
  obtain ⟨res, h1, h2, h3, h4, h5⟩ :=
    c6_pivot_groups ["G", "V"]
      [[Cell.str "a", Cell.num 1], [Cell.str "b", Cell.str "x"], [Cell.str "c", Cell.null]]
      "g" "v" "count" 0 1 (by decide) (by decide)
  refine ⟨res, h1, ?_, ?_, h4⟩
  · exact (h3 "a").mpr ⟨[Cell.str "a", Cell.num 1], by simp, by decide, by decide⟩
  · intro hb
    obtain ⟨r, hrr, hsome, hkey⟩ := (h3 "b").mp hb
    simp only [List.mem_cons, List.not_mem_nil, or_false] at hrr
    rcases hrr with rfl | rfl | rfl
    · exact absurd hkey (by decide)
    · exact absurd hsome (by decide)
    · exact absurd hkey (by decide)

/-- C10: `Number(null) = 0`, so a row whose target cell is `null` is included as the
numeric value `0` by `aggregateData` and `createPivotTable`: it is counted by `count`,
contributes `0` to `sum`, and (when no value is negative) becomes the `min`; only cells
coercing to NaN, such as `undefined` or non-numeric strings, are excluded. -/
theorem c10_null_counts_as_zero (headers : List String) (rows : List Row)
    (column rowField : String) (ci ri : Nat) (r0 : Row)
    (hc : headers.findIdx? (headerHasTerm column) = some ci)
    (hr : headers.findIdx? (headerHasTerm rowField) = some ri)
    (hr0 : r0 ∈ rows) (hr0null : rowGet r0 ci = Cell.null)
    (hnn : ∀ r ∈ rows, 0 ≤ (jsToNumber (rowGet r ci)).getD 0) :
    jsToNumber Cell.null = some 0 ∧
    jsToNumber Cell.undef = none ∧
    jsToNumber (Cell.str "abc") = none ∧
    (0 : ℚ) ∈ aggVals rows ci ∧
    aggregateData headers rows column "count" none =
      Except.ok (AggOutput.simple "count" column
        (JsNumber.finite ((aggVals rows ci).length : ℚ)) (aggVals rows ci).length) ∧
    aggregateData headers rows column "sum" none =
      Except.ok (AggOutput.simple "sum" column
        (JsNumber.finite ((aggVals rows ci).sum)) (aggVals rows ci).length) ∧
    aggregateData headers rows column "min" none =
      Except.ok (AggOutput.simple "min" column (JsNumber.finite 0)
        (aggVals rows ci).length) ∧
    ∃ res, createPivotTable headers rows rowField column "count" = Except.ok res ∧
      jsToString (rowGet r0 ri) ∈ res.pivotTable.map GroupEntry.group := by
  have h0 : jsToNumber (rowGet r0 ci) = some 0 := by rw [hr0null]; rfl
  have hmem : (0 : ℚ) ∈ aggVals rows ci := by
    rw [aggVals_eq_filterMap]
    exact List.mem_filterMap.mpr ⟨r0, hr0, h0⟩
  have hpos : ∀ x ∈ aggVals rows ci, 0 ≤ x := by
    intro x hx
    rw [aggVals_eq_filterMap] at hx
    obtain ⟨r, hrr, hfr⟩ := List.mem_filterMap.mp hx
    have hler := hnn r hrr
    rw [hfr] at hler
    simpa using hler
  refine ⟨rfl, rfl, by decide, hmem, ?_, ?_, ?_, ?_⟩
  · simp [aggregateData, hc, reduceOp]
  · simp [aggregateData, hc, reduceOp, foldl_add_eq_sum]
  · cases hvx : aggVals rows ci with
    | nil =>
      rw [hvx] at hmem
      simp at hmem
    | cons v vs =>
      have hv0 : 0 ≤ v := hpos v (by rw [hvx]; exact List.mem_cons_self _ _)
      have hvs : ∀ x ∈ vs, 0 ≤ x := fun x hx =>
        hpos x (by rw [hvx]; exact List.mem_cons_of_mem _ hx)
      have hin : v = 0 ∨ 0 ∈ vs := by
        have hmem2 := hmem
        rw [hvx] at hmem2
        rcases List.mem_cons.mp hmem2 with hz | hz
        · exact Or.inl hz.symm
        · exact Or.inr hz
      have hminz : vs.foldl min v = 0 := foldl_min_eq_zero vs v hv0 hvs hin
      simp [aggregateData, hc, reduceOp, hvx, hminz]
  · have heqp : createPivotTable headers rows rowField column "count" =
        Except.ok
          { pivotTable := (buildGroups (fun row => (jsToNumber (rowGet row ci)).map
                (fun v => (jsToString (rowGet row ri), v))) rows).map
              (fun e => GroupEntry.mk e.1 (pivotReduce "count" e.2) e.2.length)
            rowField := rowField, valueField := column, operation := "count"
            totalGroups := ((buildGroups (fun row => (jsToNumber (rowGet row ci)).map
                (fun v => (jsToString (rowGet row ri), v))) rows).map
              (fun e => GroupEntry.mk e.1 (pivotReduce "count" e.2) e.2.length)).length } := by
      simp [createPivotTable, hr, hc]
    refine ⟨_, heqp, ?_⟩
    have hmap :
        ((buildGroups (fun row => (jsToNumber (rowGet row ci)).map
            (fun v => (jsToString (rowGet row ri), v))) rows).map
          (fun e => GroupEntry.mk e.1 (pivotReduce "count" e.2) e.2.length)).map
            GroupEntry.group =
          (buildGroups (fun row => (jsToNumber (rowGet row ci)).map
            (fun v => (jsToString (rowGet row ri), v))) rows).map Prod.fst := by
      rw [List.map_map]
      rfl
    rw [hmap, buildGroups_mem_keys]
    refine ⟨r0, hr0, 0, ?_⟩
    rw [h0]
    rfl

/-- C10, witnessed on `[[null], [5], ["x"]]`: the `null` row is counted, `0` is among
the aggregated values, and the minimum is `0`. -/
theorem c10_witness :
    (0 : ℚ) ∈ aggVals [[Cell.null], [Cell.num 5], [Cell.str "x"]] 0 ∧
      aggregateData ["A"] [[Cell.null], [Cell.num 5], [Cell.str "x"]] "a" "min" none =
        Except.ok (AggOutput.simple "min" "a" (JsNumber.finite 0)
          (aggVals [[Cell.null], [Cell.num 5], [Cell.str "x"]] 0).length) ∧
      (∃ res, createPivotTable ["A"] [[Cell.null], [Cell.num 5], [Cell.str "x"]] "a" "a"
          "count" = Except.ok res ∧
        jsToString (rowGet [Cell.null] 0) ∈ res.pivotTable.map GroupEntry.group) := by
  obtain ⟨h1, h2, h3, h4, h5, h6, h7, h8⟩ :=
    c10_null_counts_as_zero ["A"] [[Cell.null], [Cell.num 5], [Cell.str "x"]] "a" "a" 0 0
      [Cell.null] (by decide) (by decide) (by simp) (by decide) (by decide)
  exact ⟨h4, h7, h8⟩

/-- C7 counterexample: on a 101-row table of distinct numeric keys the 100-row cap makes
the ascending and descending outputs fail to be reverses of each other even up to
reordering of equal keys — they are not even permutations of each other, and the row
`[100]` occurs only in the descending output. -/
theorem c7_counterexample :
    ¬ (getSortedRows (sortData ["N"] rows101 "n" SortOrder.asc)).Perm
        (getSortedRows (sortData ["N"] rows101 "n" SortOrder.desc)) ∧
      [Cell.num 100] ∈ getSortedRows (sortData ["N"] rows101 "n" SortOrder.desc) ∧
      [Cell.num 100] ∉ getSortedRows (sortData ["N"] rows101 "n" SortOrder.asc) ∧
      (getSortedRows (sortData ["N"] rows101 "n" SortOrder.asc)).length = 100 ∧
      (getSortedRows (sortData ["N"] rows101 "n" SortOrder.desc)).length = 100 := by
  decide

/-- C7 amended: on a table of at most 100 rows (so that the 100-row cap is inert) whose
cells in the resolved column all coerce to numbers (so that the comparator is a total
preorder), the ascending and descending outputs of `sortData` are permutations of each
other and their key sequences are exact reverses — i.e. the row sequences are reverses
of each other up to reordering of rows with equal sort keys. -/
theorem c7_amended_sort_reverse (headers : List String) (rows : List Row) (column : String)
    (ci : Nat)
    (hc : headers.findIdx? (headerHasTerm column) = some ci)
    (hnum : ∀ r ∈ rows, (jsToNumber (rowGet r ci)).isSome = true)
    (hlen : rows.length ≤ 100) :
    ∃ ra rd, sortData headers rows column SortOrder.asc = Except.ok ra ∧
      sortData headers rows column SortOrder.desc = Except.ok rd ∧
      ra.sortedRows.Perm rd.sortedRows ∧
      ra.sortedRows.map (keyOf ci) = (rd.sortedRows.map (keyOf ci)).reverse := by
  have hkey : ∀ r ∈ rows, jsToNumber (rowGet r ci) = some (keyOf ci r) := by
    intro r hr
    obtain ⟨q, hq⟩ := Option.isSome_iff_exists.mp (hnum r hr)
    rw [hq]
    simp [keyOf, hq]
  have hpermA : (stableSortBy (rowCompare ci SortOrder.asc) rows).Perm rows :=
    stableSortBy_perm _ _
  have hpermD : (stableSortBy (rowCompare ci SortOrder.desc) rows).Perm rows :=
    stableSortBy_perm _ _
  have htakeA : (stableSortBy (rowCompare ci SortOrder.asc) rows).take 100 =
      stableSortBy (rowCompare ci SortOrder.asc) rows :=
    List.take_of_length_le (by rw [hpermA.length_eq]; omega)
  have htakeD : (stableSortBy (rowCompare ci SortOrder.desc) rows).take 100 =
      stableSortBy (rowCompare ci SortOrder.desc) rows :=
    List.take_of_length_le (by rw [hpermD.length_eq]; omega)
  have hcmpA : ∀ x ∈ rows, ∀ y ∈ rows,
      (rowCompare ci SortOrder.asc x y = Ordering.lt ↔ keyOf ci x < keyOf ci y) := by
    intro x hx y hy
    have heq : rowCompare ci SortOrder.asc x y = cmpQ (keyOf ci x) (keyOf ci y) := by
      unfold rowCompare
      rw [hkey x hx, hkey y hy]
    rw [heq]
    exact cmpQ_eq_lt_iff _ _
  have hcmpD : ∀ x ∈ rows, ∀ y ∈ rows,
      (rowCompare ci SortOrder.desc x y = Ordering.lt ↔
        -(keyOf ci x) < -(keyOf ci y)) := by
    intro x hx y hy
    have heq : rowCompare ci SortOrder.desc x y = cmpQ (keyOf ci y) (keyOf ci x) := by
      unfold rowCompare
      rw [hkey x hx, hkey y hy]
    rw [heq, cmpQ_eq_lt_iff]
    exact neg_lt_neg_iff.symm
  have hsortA : (stableSortBy (rowCompare ci SortOrder.asc) rows).Pairwise
      (fun x y => keyOf ci x ≤ keyOf ci y) :=
    stableSortBy_pairwise (keyOf ci) _ rows hcmpA
  have hsortD : (stableSortBy (rowCompare ci SortOrder.desc) rows).Pairwise
      (fun x y => keyOf ci y ≤ keyOf ci x) := by
    refine (stableSortBy_pairwise (fun r => -(keyOf ci r)) _ rows hcmpD).imp ?_
    intro a b hab
    exact neg_le_neg_iff.mp hab
  have hmapA : ((stableSortBy (rowCompare ci SortOrder.asc) rows).map (keyOf ci)).Pairwise
      (· ≤ ·) := List.pairwise_map.mpr hsortA
  have hmapD : (((stableSortBy (rowCompare ci SortOrder.desc) rows).map
      (keyOf ci)).reverse).Pairwise (· ≤ ·) := by
    rw [List.pairwise_reverse]
    exact List.pairwise_map.mpr hsortD
  have hpermkeys : ((stableSortBy (rowCompare ci SortOrder.asc) rows).map (keyOf ci)).Perm
      (((stableSortBy (rowCompare ci SortOrder.desc) rows).map (keyOf ci)).reverse) :=
    (hpermA.map (keyOf ci)).trans
      (((hpermD.map (keyOf ci)).symm).trans (List.reverse_perm _).symm)
  have heqkeys : (stableSortBy (rowCompare ci SortOrder.asc) rows).map (keyOf ci) =
      ((stableSortBy (rowCompare ci SortOrder.desc) rows).map (keyOf ci)).reverse :=
    List.eq_of_perm_of_sorted hpermkeys hmapA hmapD
  have heqa : sortData headers rows column SortOrder.asc = Except.ok
      { sortedRows := (stableSortBy (rowCompare ci SortOrder.asc) rows).take 100
        totalRows := (stableSortBy (rowCompare ci SortOrder.asc) rows).length
        column := column, order := SortOrder.asc } := by
    simp [sortData, hc]
  have heqd : sortData headers rows column SortOrder.desc = Except.ok
      { sortedRows := (stableSortBy (rowCompare ci SortOrder.desc) rows).take 100
        totalRows := (stableSortBy (rowCompare ci SortOrder.desc) rows).length
        column := column, order := SortOrder.desc } := by
    simp [sortData, hc]
  refine ⟨_, _, heqa, heqd, ?_, ?_⟩
  · show ((stableSortBy (rowCompare ci SortOrder.asc) rows).take 100).Perm
      ((stableSortBy (rowCompare ci SortOrder.desc) rows).take 100)
    rw [htakeA, htakeD]
    exact hpermA.trans hpermD.symm
  · show ((stableSortBy (rowCompare ci SortOrder.asc) rows).take 100).map (keyOf ci) =
      (((stableSortBy (rowCompare ci SortOrder.desc) rows).take 100).map (keyOf ci)).reverse
    rw [htakeA, htakeD]
    exact heqkeys

/-- C7 amended, witnessed on a three-row numeric table. -/
theorem c7_amended_witness :
    ∃ ra rd, sortData ["N"] [[Cell.num 3], [Cell.num 1], [Cell.num 2]] "n"
        SortOrder.asc = Except.ok ra ∧
      sortData ["N"] [[Cell.num 3], [Cell.num 1], [Cell.num 2]] "n"
        SortOrder.desc = Except.ok rd ∧
      ra.sortedRows.Perm rd.sortedRows ∧
      ra.sortedRows.map (keyOf 0) = (rd.sortedRows.map (keyOf 0)).reverse :=
  c7_amended_sort_reverse ["N"] [[Cell.num 3], [Cell.num 1], [Cell.num 2]] "n" 0
    (by decide) (by decide) (by decide)

end ExcelAgent
